import Mathlib

/-!
Verification of the Stripe-Invoice storefront backend: tier pricing
resolution, catalog cache and normalizer, shipping options, asset-key
derivation, and mockup-compositing geometry, shallowly embedded from
`server.js` and its sibling revisions.

Prices are modelled as exact rationals (the source uses JS numbers on
decimal dollar amounts); quantities and cent amounts as integers.
-/

namespace StripeInvoice

/-- A pricing tier, as in the `pricing` arrays of `server.js`:
`{ minQty, maxQty, price }` with `maxQty: null` meaning unbounded. -/
structure Tier where
  minQty : ℤ
  maxQty : Option ℤ
  price : ℚ
deriving DecidableEq

/-- The tier predicate from `calculatePrice` in `server.js`:
`q >= p.minQty && (p.maxQty === null || q <= p.maxQty)`. -/
def matchesB (q : ℤ) (t : Tier) : Bool :=
  decide (t.minQty ≤ q) &&
    (match t.maxQty with
     | none => true
     | some m => decide (q ≤ m))

/-- `product.pricing.find(...)` from `calculatePrice`. -/
def tierFor (pricing : List Tier) (q : ℤ) : Option Tier :=
  pricing.find? (matchesB q)

/-- Unit price resolution from `calculatePrice`:
`tier ? tier.price : product.pricing[0].price`.  Reading
`pricing[0].price` of an empty array throws in JS, hence `none` when no
tier matches and the list is empty. -/
def unitPriceOpt (pricing : List Tier) (q : ℤ) : Option ℚ :=
  match tierFor pricing q with
  | some t => some t.price
  | none => pricing.head?.map Tier.price

/-- Quantity resolution `Math.max(1, parseInt(quantity, 10) || 1)`:
a missing / non-numeric quantity defaults to 1, and a parsed 0 is falsy
in JS so `|| 1` also yields 1. -/
def resolveQty (quantity : Option ℤ) : ℤ :=
  max 1 (match quantity with
         | none => 1
         | some n => if n = 0 then 1 else n)

/-- `calculatePrice(product, quantity)` from `server.js`. -/
def calculatePrice (pricing : List Tier) (quantity : Option ℤ) : Option ℚ :=
  unitPriceOpt pricing (resolveQty quantity)

/-- Rounding to 2 decimal places, as `Number(x.toFixed(2))`. -/
def round2 (q : ℚ) : ℚ := (round (q * 100) : ℚ) / 100

/-- The JSON body produced by the `POST /api/calculate-price` handler. -/
structure PriceResponse where
  quantity : ℤ
  unitPrice : ℚ
  totalPrice : ℚ
  savings : ℚ
deriving DecidableEq

/-- The `POST /api/calculate-price` handler from `server.js`:
`qty = Math.max(1, parseInt(quantity,10) || 1)`,
`unitPrice = calculatePrice(product, qty)`,
`totalPrice = unitPrice * qty`,
`basePrice = product.pricing?.[0]?.price || unitPrice`,
`savings = qty > 1 ? (basePrice - unitPrice) * qty : 0`, rounded. -/
def calcPriceResponse (pricing : List Tier) (quantity : Option ℤ) :
    Option PriceResponse :=
  let qty := resolveQty quantity
  (unitPriceOpt pricing qty).map fun unit =>
    let base : ℚ :=
      match pricing.head? with
      | some t => if t.price = 0 then unit else t.price
      | none => unit
    let savings : ℚ := if 1 < qty then (base - unit) * (qty : ℚ) else 0
    ⟨qty, unit, unit * (qty : ℚ), round2 savings⟩

/-- The pricing tiers of fallback product `PROD001` in `server.js`. -/
def tiersC1 : List Tier :=
  [⟨1, some 9, 2999/100⟩, ⟨10, some 49, 2699/100⟩,
   ⟨50, some 99, 2399/100⟩, ⟨100, none, 1999/100⟩]

/-- Two tiers never both match the same quantity. -/
def tierDisjoint (a b : Tier) : Prop :=
  ∀ q : ℤ, ¬(matchesB q a = true ∧ matchesB q b = true)

/-- The spec Product invariant, as literally stated: pricing tiers are
non-overlapping, sorted ascending by minimum quantity, and the last
tier has an open-ended (null) maximum. -/
def wellFormedInv (ts : List Tier) : Prop :=
  ts ≠ [] ∧ List.Pairwise tierDisjoint ts ∧
    List.Chain' (fun a b => a.minQty < b.minQty) ts ∧
    ∀ t, ts.getLast? = some t → t.maxQty = none

/-- Contiguous tier coverage starting at `lo`: the first tier starts at
exactly `lo`, each bounded tier is non-empty and is followed by a tier
starting right after its maximum, and the final tier is unbounded. -/
def contiguousFromB : ℤ → List Tier → Bool
  | _, [] => false
  | lo, [t] => (t.minQty == lo) && (t.maxQty == none)
  | lo, t :: r :: rs =>
    (t.minQty == lo) &&
      (match t.maxQty with
       | none => false
       | some m => decide (lo ≤ m) && contiguousFromB (m + 1) (r :: rs))

/-- Adjacent tier prices are non-increasing (bulk discount). -/
def pricesDescB : List Tier → Bool
  | [] => true
  | [_] => true
  | a :: b :: rest => decide (b.price ≤ a.price) && pricesDescB (b :: rest)

/-- Strengthened well-formedness: contiguous coverage of all
quantities from 1 upward, with non-increasing prices. -/
def wellFormedB (ts : List Tier) : Bool :=
  contiguousFromB 1 ts && pricesDescB ts

/-- A tier list satisfying the literal spec invariant but leaving a
coverage gap (quantities 6 to 9 match no tier). -/
def tiersGap : List Tier := [⟨1, some 5, 10⟩, ⟨10, none, 5⟩]

/-- A tier list satisfying the literal spec invariant whose unit price
increases with quantity. -/
def tiersInc : List Tier := [⟨1, some 9, 10⟩, ⟨10, none, 20⟩]

/-- A catalog product as held in the fallback `PRODUCTS` array. -/
structure Product where
  id : String
  name : String
  sku : String
  category : String
  description : String
  imageFile : String
  pricing : List Tier
deriving DecidableEq

/-- The hardcoded local fallback catalog `PRODUCTS` (20 products,
`PROD001` through `PROD020`). -/
def PRODUCTS : List Product :=
  [⟨"PROD001", "Premium T-Shirt - Black", "TSHIRT-18500-BLACK", "apparel",
    "Premium cotton t-shirt with custom logo",
    "18500_Black_Flat_Front-01_big_back.png",
    [⟨1, some 9, 2999/100⟩, ⟨10, some 49, 2699/100⟩, ⟨50, some 99, 2399/100⟩,
     ⟨100, none, 1999/100⟩]⟩,
   ⟨"PROD002", "Premium T-Shirt - Dark Chocolate", "TSHIRT-18500-CHOC", "apparel",
    "Premium cotton t-shirt in dark chocolate with custom logo",
    "18500_Dark Chocolate_Flat_Front-01_big_back.png",
    [⟨1, some 9, 2999/100⟩, ⟨10, some 49, 2699/100⟩, ⟨50, some 99, 2399/100⟩,
     ⟨100, none, 1999/100⟩]⟩,
   ⟨"PROD003", "Classic T-Shirt - Black", "TSHIRT-2000-BLACK", "apparel",
    "Classic fit t-shirt with custom logo",
    "2000_black_flat_front-01_right_chest.png",
    [⟨1, some 19, 2499/100⟩, ⟨20, some 99, 2199/100⟩, ⟨100, some 499, 1899/100⟩,
     ⟨500, none, 1599/100⟩]⟩,
   ⟨"PROD004", "Classic T-Shirt - Charcoal", "TSHIRT-2000-CHARCOAL", "apparel",
    "Classic fit charcoal t-shirt with custom logo",
    "2000_charcoal_flat_front-01_right_chest.png",
    [⟨1, some 19, 2499/100⟩, ⟨20, some 99, 2199/100⟩, ⟨100, some 499, 1899/100⟩,
     ⟨500, none, 1599/100⟩]⟩,
   ⟨"PROD005", "Heavy Cotton T-Shirt - Black", "TSHIRT-5400-BLACK", "apparel",
    "Heavy cotton t-shirt with custom logo",
    "5400_black_flat_front-01_right_chest.png",
    [⟨1, some 24, 1999/100⟩, ⟨25, some 99, 1799/100⟩, ⟨100, some 999, 1499/100⟩,
     ⟨1000, none, 1299/100⟩]⟩,
   ⟨"PROD006", "Canvas T-Shirt - Duck Brown", "CSV40-DUCKBROWN", "apparel",
    "Canvas v-neck t-shirt in duck brown with custom logo",
    "CSV40_duckbrown_flat_front-01_right_chest.png",
    [⟨1, some 49, 2299/100⟩, ⟨50, some 249, 1999/100⟩, ⟨250, some 999, 1699/100⟩,
     ⟨1000, none, 1499/100⟩]⟩,
   ⟨"PROD007", "Safety T-Shirt - Yellow", "CSV106-SAFETY", "apparel",
    "High visibility safety yellow t-shirt with custom logo",
    "CSV106_safetyyellow_flat_front_right_chest.png",
    [⟨1, some 49, 1899/100⟩, ⟨50, some 249, 1699/100⟩, ⟨250, some 999, 1499/100⟩,
     ⟨1000, none, 1299/100⟩]⟩,
   ⟨"PROD008", "Casual T-Shirt - Black", "CT104050-BLACK", "apparel",
    "Casual black t-shirt with custom logo",
    "CT104050_black_flat_front-01_right_chest.png",
    [⟨1, some 49, 2699/100⟩, ⟨50, some 249, 2399/100⟩, ⟨250, some 999, 2099/100⟩,
     ⟨1000, none, 1799/100⟩]⟩,
   ⟨"PROD009", "Casual T-Shirt - Carhartt Brown", "CT104050-BROWN", "apparel",
    "Casual Carhartt brown t-shirt with custom logo",
    "CT104050_carharttbrown_flat_front-01_right_chest.png",
    [⟨1, some 49, 2699/100⟩, ⟨50, some 249, 2399/100⟩, ⟨250, some 999, 2099/100⟩,
     ⟨1000, none, 1799/100⟩]⟩,
   ⟨"PROD010", "Fashion T-Shirt - Black", "F170-BLACK", "apparel",
    "Fashion fit black t-shirt with custom logo",
    "F170_Black_flat_front-01_big_back.png",
    [⟨1, some 49, 2199/100⟩, ⟨50, some 249, 1999/100⟩, ⟨250, some 999, 1699/100⟩,
     ⟨1000, none, 1499/100⟩]⟩,
   ⟨"PROD011", "Heavy Blend T-Shirt - Black", "G2400-BLACK", "apparel",
    "Heavy blend black t-shirt with custom logo",
    "G2400_black_flat_front-01_big_back.png",
    [⟨1, some 49, 2399/100⟩, ⟨50, some 249, 2099/100⟩, ⟨250, some 999, 1799/100⟩,
     ⟨1000, none, 1599/100⟩]⟩,
   ⟨"PROD012", "Heavy Blend T-Shirt - Charcoal", "G2400-CHARCOAL", "apparel",
    "Heavy blend charcoal t-shirt with custom logo",
    "G2400_charcoal_flat_front-01_big_back.png",
    [⟨1, some 49, 2399/100⟩, ⟨50, some 249, 2099/100⟩, ⟨250, some 999, 1799/100⟩,
     ⟨1000, none, 1599/100⟩]⟩,
   ⟨"PROD013", "Heavy Blend T-Shirt - Dark Chocolate", "G2400-DARKCHOC", "apparel",
    "Heavy blend dark chocolate t-shirt with custom logo",
    "G2400_darkchocolate_flat_front-01_big_back.png",
    [⟨1, some 49, 2399/100⟩, ⟨50, some 249, 2099/100⟩, ⟨250, some 999, 1799/100⟩,
     ⟨1000, none, 1599/100⟩]⟩,
   ⟨"PROD014", "Lightweight T-Shirt - Black", "K540-BLACK", "apparel",
    "Lightweight black t-shirt with custom logo",
    "K540_Black_Flat_Front-01_right_chest.png",
    [⟨1, some 49, 2799/100⟩, ⟨50, some 249, 2499/100⟩, ⟨250, some 999, 2199/100⟩,
     ⟨1000, none, 1899/100⟩]⟩,
   ⟨"PROD015", "Nike Dri-FIT T-Shirt - Black", "NKCY9963-BLACK", "apparel",
    "Nike Dri-FIT performance t-shirt with custom logo",
    "NKDC1963_Black_Flat_Front-01_right_chest.png",
    [⟨1, some 24, 4499/100⟩, ⟨25, some 99, 4099/100⟩, ⟨100, some 499, 3699/100⟩,
     ⟨500, none, 3299/100⟩]⟩,
   ⟨"PROD016", "Performance T-Shirt - Black", "PC78SP-BLACK", "apparel",
    "Performance jet black t-shirt with custom logo",
    "PC78SP_JET BLACK_Flat_Front-01_right_chest.png",
    [⟨1, some 49, 3199/100⟩, ⟨50, some 249, 2899/100⟩, ⟨250, some 999, 2599/100⟩,
     ⟨1000, none, 2299/100⟩]⟩,
   ⟨"PROD017", "Tri-Blend T-Shirt - Black", "TL1763H-BLACK", "apparel",
    "Tri-blend black t-shirt with custom logo",
    "TLJ763H_Black_Flat_Front-01_right_chest.png",
    [⟨1, some 49, 3499/100⟩, ⟨50, some 249, 3199/100⟩, ⟨250, some 999, 2799/100⟩,
     ⟨1000, none, 2499/100⟩]⟩,
   ⟨"PROD018", "Tri-Blend T-Shirt - Duck Brown", "TL1763H-DUCKBROWN", "apparel",
    "Tri-blend duck brown t-shirt with custom logo",
    "TLJ763H_Duck Brown_Flat_Front-01_right_chest.png",
    [⟨1, some 49, 3499/100⟩, ⟨50, some 249, 3199/100⟩, ⟨250, some 999, 2799/100⟩,
     ⟨1000, none, 2499/100⟩]⟩,
   ⟨"PROD019", "Grey Steel T-Shirt - Orange Logo", "C112-GREYSTEEL", "apparel",
    "Grey steel t-shirt with neon orange custom logo",
    "C112_greysteelneonorange_full_front-01_right_chest.png",
    [⟨1, some 49, 2899/100⟩, ⟨50, some 249, 2599/100⟩, ⟨250, some 999, 2299/100⟩,
     ⟨1000, none, 1999/100⟩]⟩,
   ⟨"PROD020", "Classic Polo - Black", "C932-BLACK", "apparel",
    "Classic black polo shirt with embroidered logo",
    "C932_Black_Flat_Front-01_right_chest.png",
    [⟨1, some 19, 3999/100⟩, ⟨20, some 99, 3599/100⟩, ⟨100, some 499, 3199/100⟩,
     ⟨500, none, 2799/100⟩]⟩]

/-- `getActiveProducts` from `server.js`: the Airtable fetch outcome,
falling back to the local `PRODUCTS` when the fetch throws. -/
def getActiveProducts (fetched : Except String (List Product)) : List Product :=
  match fetched with
  | Except.ok ps => ps
  | Except.error _ => PRODUCTS

/-- Enrichment field `currentPrice: Number(pricing?.[0]?.price || 0)`
computed by the `GET /api/products` handler. -/
def currentPrice (p : Product) : ℚ :=
  match p.pricing.head? with
  | some t => if t.price = 0 then 0 else t.price
  | none => 0

/-- The `GET /api/products` handler: try the cached Airtable fetch,
fall back to `PRODUCTS` on any error, enrich every product, and always
answer `res.json(...)`, i.e. HTTP status 200. -/
def apiProductsResponse (fetched : Except String (List Product)) :
    ℕ × List (Product × ℚ) :=
  (200, (getActiveProducts fetched).map (fun p => (p, currentPrice p)))

/-- The module-level mutable cache
`_airtableCache = { products, expiresAt }`. -/
structure AirtableCache where
  products : Option (List Product)
  expiresAt : ℤ
deriving DecidableEq

/-- The cache-miss path of `fetchProductsFromAirtableCached`: on fetch
success replace the cache with the fresh list and expiry
`now + 5 * 60 * 1000`; on fetch failure propagate the error, leaving
the cache untouched. -/
def fetchCachedStep (raw : Except String (List Product))
    (st : AirtableCache) (now : ℤ) :
    Except String (List Product) × AirtableCache :=
  match raw with
  | Except.ok fresh => (Except.ok fresh, ⟨some fresh, now + 5 * 60 * 1000⟩)
  | Except.error e => (Except.error e, st)

/-- `fetchProductsFromAirtableCached` from `server.js`: if the cache
is populated and `expiresAt > now`, serve the cached list without
fetching; otherwise fetch (outcome passed in as `raw`). -/
def fetchProductsFromAirtableCached (st : AirtableCache) (now : ℤ)
    (raw : Except String (List Product)) :
    Except String (List Product) × AirtableCache :=
  match st.products with
  | some ps =>
    if now < st.expiresAt then (Except.ok ps, st) else fetchCachedStep raw st now
  | none => fetchCachedStep raw st now

/-- A JSON value, for the JSON-encoded `pricing_json` and `boxes`
sub-fields of an Airtable record. -/
inductive Json where
  | null
  | bool (b : Bool)
  | num (q : ℚ)
  | str (s : String)
  | arr (xs : List Json)
  | obj (kvs : List (String × Json))

/-- A raw string field as fed to `safeJsonParse`: absent (or not a
string), present but not valid JSON, or valid JSON. -/
inductive RawField where
  | missing
  | malformed
  | parsed (v : Json)

/-- `safeJsonParse(str, fallback)` from `server.js`: absent or
non-string input and JSON parse errors both yield the fallback. -/
def safeJsonParse (f : RawField) (fallback : Json) : Json :=
  match f with
  | RawField.missing => fallback
  | RawField.malformed => fallback
  | RawField.parsed v => v

/-- JS `a || d` on a possibly-absent string: `undefined` and the empty
string are falsy. -/
def jsStrOr (o : Option String) (d : String) : String :=
  match o with
  | some s => if s = "" then d else s
  | none => d

/-- The fields object of a raw Airtable record (`rec.fields`). -/
structure AirtableRecordFields where
  product_id : Option String
  id : Option String
  name : Option String
  sku : Option String
  description : Option String
  image_file : Option String
  pricing_json : RawField
  boxes : RawField

/-- The `{}` default of `rec.fields || {}`. -/
def emptyFields : AirtableRecordFields :=
  ⟨none, none, none, none, none, none, RawField.missing, RawField.missing⟩

/-- A raw Airtable record: a record id plus an optional fields
object. -/
structure AirtableRecord where
  id : String
  fields : Option AirtableRecordFields

/-- JS property access `j?.k`: a key lookup that is `undefined` on
non-objects. -/
def jsonGet (j : Json) (k : String) : Option Json :=
  match j with
  | Json.obj kvs => (kvs.find? (fun kv => kv.1 == k)).map (fun kv => kv.2)
  | _ => none

/-- `Array.isArray`. -/
def isArrayB : Json → Bool
  | Json.arr _ => true
  | _ => false

/-- The normalized product shape produced by
`mapAirtableRecordToProduct`. -/
structure RawProduct where
  id : String
  name : String
  sku : String
  description : String
  imageFile : String
  pricing : Json
  boxes : List Json

/-- `mapAirtableRecordToProduct(rec)` from `server.js`:
`id = f.product_id || f.id || rec.id`, string fields defaulted to `''`,
`pricing = Array.isArray(parsed) ? parsed : []` from
`safeJsonParse(f.pricing_json, [])`, and
`boxes = Array.isArray(boxesObj?.boxes) ? boxesObj.boxes : []` from
`safeJsonParse(f.boxes, { boxes: [] })`. -/
def mapAirtableRecordToProduct (rec : AirtableRecord) : RawProduct :=
  let f := rec.fields.getD emptyFields
  let pricing := safeJsonParse f.pricing_json (Json.arr [])
  let boxesObj := safeJsonParse f.boxes (Json.obj [("boxes", Json.arr [])])
  { id := jsStrOr f.product_id (jsStrOr f.id rec.id)
    name := jsStrOr f.name ""
    sku := jsStrOr f.sku ""
    description := jsStrOr f.description ""
    imageFile := jsStrOr f.image_file ""
    pricing := match pricing with
               | Json.arr xs => Json.arr xs
               | _ => Json.arr []
    boxes := match jsonGet boxesObj "boxes" with
             | some (Json.arr xs) => xs
             | _ => [] }

/-- The validity filter of `fetchProductsFromAirtableRaw`:
`r.id && r.imageFile && Array.isArray(r.pricing)`. -/
def validB (r : RawProduct) : Bool :=
  (!(r.id == "")) && (!(r.imageFile == "")) && isArrayB r.pricing

/-- `fetchProductsFromAirtableRaw` after pagination: map, filter, and
throw when no valid products remain. -/
def fetchRows (records : List AirtableRecord) :
    Except String (List RawProduct) :=
  let rows := (records.map mapAirtableRecordToProduct).filter validB
  if rows.isEmpty then Except.error "No valid products from Airtable"
  else Except.ok rows

/-- A concrete raw record whose `pricing_json` is malformed and whose
`boxes` field is absent. -/
def recMalformed : AirtableRecord :=
  ⟨"recAAA", some ⟨some "P1", none, some "Shirt", none, none,
    some "shirt.png", RawField.malformed, RawField.missing⟩⟩

/-- A concrete raw record with identifier and image present and
`pricing_json` parsing to the empty JSON array. -/
def recEmptyPricing : AirtableRecord :=
  ⟨"recBBB", some ⟨some "P2", none, some "Cap", none, none,
    some "cap.png", RawField.parsed (Json.arr []), RawField.missing⟩⟩

/-- `design.placement.px` of the render endpoint: a pixel rectangle
given by its two corners. -/
structure PlacementPx where
  x1 : ℚ
  y1 : ℚ
  x2 : ℚ
  y2 : ℚ
deriving DecidableEq

/-- Failure of the placement-resolution step of the render handler. -/
inductive RenderFailure where
  | placementRequired
deriving DecidableEq

/-- A resolved integer rectangle (composite position and logo size). -/
structure RenderRect where
  rectLeft : ℤ
  rectTop : ℤ
  width : ℤ
  height : ℤ
deriving DecidableEq

/-- The target-rectangle resolution of the
`POST /api/quotes/:quoteId/versions/:versionId/previews/:productId/render`
handler: missing `placement.px` is a 400 error; otherwise
`width = Math.max(1, Math.round(x2 - x1))`,
`height = Math.max(1, Math.round(y2 - y1))`, and the composite is
placed at `(Math.round(x1), Math.round(y1))`. -/
def resolveRenderRect (placement : Option PlacementPx) :
    Except RenderFailure RenderRect :=
  match placement with
  | none => Except.error RenderFailure.placementRequired
  | some p =>
    Except.ok ⟨round p.x1, round p.y1,
      max 1 (round (p.x2 - p.x1)), max 1 (round (p.y2 - p.y1))⟩

/-- A placement box as read by `composeMockup`: every coordinate field
optional, with the `x1/y1/x2/y2` names preferred over
`left/top/right/bottom` via `??`. -/
structure MockupBox where
  bx1 : Option ℚ
  bleft : Option ℚ
  by1 : Option ℚ
  btop : Option ℚ
  bx2 : Option ℚ
  bright : Option ℚ
  by2 : Option ℚ
  bbottom : Option ℚ
deriving DecidableEq

/-- The placement-geometry of `composeMockup(basePath, logoBuf,
product)`: with at least one box, normalized 0..1 coordinates scaled by
the base image's size; with zero boxes, the default block
`w = Math.round(width * 0.30)`, `h = Math.round(w * 0.6)`,
`x = Math.round((width - w) / 2)`, `y = Math.round(height * 0.30)`. -/
def composeMockupRect (boxes : List MockupBox) (width height : ℕ) :
    RenderRect :=
  match boxes with
  | b :: _ =>
    let nx1 := b.bx1.getD (b.bleft.getD (35/100))
    let ny1 := b.by1.getD (b.btop.getD (25/100))
    let nx2 := b.bx2.getD (b.bright.getD (65/100))
    let ny2 := b.by2.getD (b.bbottom.getD (45/100))
    ⟨round (nx1 * width), round (ny1 * height),
     round ((nx2 - nx1) * width), round ((ny2 - ny1) * height)⟩
  | [] =>
    let w : ℤ := round ((width : ℚ) * (30/100))
    let h : ℤ := round ((w : ℚ) * (6/10))
    ⟨round (((width : ℚ) - (w : ℚ)) / 2), round ((height : ℚ) * (30/100)),
     w, h⟩

/-- A Stripe `shipping_options` entry (display name and fixed amount
in cents). -/
structure ShippingOption where
  displayName : String
  amount : ℤ
deriving DecidableEq

/-- JS `String.prototype.toUpperCase()` on ASCII input, as a
character-wise map. -/
def toUpperStr (s : String) : String := ⟨s.data.map Char.toUpper⟩

/-- `shippingAddress?.country || 'US'`: an absent or empty country
defaults to `'US'`. -/
def resolveCountry (country : Option String) : String :=
  match country with
  | none => "US"
  | some c => if c = "" then "US" else c

/-- `shippingOptionsFor(subtotalCents, shippingAddress)` from
`server.js`. -/
def shippingOptionsFor (subtotalCents : ℤ) (country : Option String) :
    List ShippingOption :=
  if toUpperStr (resolveCountry country) = "US" then
    let standardAmount : ℤ := if subtotalCents < 10000 then 1000 else 0
    [⟨if standardAmount = 0 then "Standard (Free over $100)" else "Standard",
      standardAmount⟩,
     ⟨"Express", 2500⟩]
  else
    [⟨"Standard (Intl.)", 2500⟩, ⟨"Express (Intl.)", 5000⟩]

/-- Lowercasing a string represented as a character list. -/
def lowerStr (s : List Char) : List Char := s.map Char.toLower

/-- The literal token substituted for `@`. -/
def atToken : List Char := "_at_".toList

/-- The literal token substituted for `.`. -/
def dotToken : List Char := "_dot_".toList

/-- `.replace(/@/g, '_at_')`. -/
def replaceAtChar (s : List Char) : List Char :=
  s.flatMap (fun c => if c = '@' then atToken else [c])

/-- `.replace(/\./g, '_dot_')`. -/
def replaceDotChar (s : List Char) : List Char :=
  s.flatMap (fun c => if c = '.' then dotToken else [c])

/-- `emailToS3Folder(email)` from `server.js`: lowercase, then replace
every `@` with `_at_` and every `.` with `_dot_`. -/
def emailToS3Folder (email : List Char) : List Char :=
  replaceDotChar (replaceAtChar (lowerStr email))

/-- Single-character sanitization: `@` and `.` become their literal
tokens, all other characters pass through. -/
def sanitizeChar (c : Char) : List Char :=
  if c = '@' then atToken else if c = '.' then dotToken else [c]

/-- JS `String.prototype.split` on a single-character separator. -/
def splitOnChar (sep : Char) : List Char → List (List Char)
  | [] => [[]]
  | c :: cs =>
    let r := splitOnChar sep cs
    if c = sep then [] :: r
    else
      match r with
      | [] => [[c]]
      | h :: t => (c :: h) :: t

/-- The fallback domain `'unknown.local'`. -/
def unknownDomain : List Char := "unknown.local".toList

/-- `companyDomainFromEmail(email)`: lowercase, split on `@`, take the
second segment, falling back to `'unknown.local'` when it is absent or
empty. -/
def companyDomainFromEmail (email : List Char) : List Char :=
  let s := lowerStr email
  match (splitOnChar '@' s).get? 1 with
  | some d => if d = [] then unknownDomain else d
  | none => unknownDomain

/-- `s3KeyForLogo(companyDomain, logoId, filename)`. -/
def s3KeyForLogo (companyDomain logoId filename : List Char) : List Char :=
  "company/".toList ++ companyDomain ++ "/logos/".toList ++ logoId ++
    "/".toList ++ filename

/-- `s3KeyForDesign(companyDomain, quoteId, versionId, productId)`. -/
def s3KeyForDesign (companyDomain quoteId versionId productId : List Char) :
    List Char :=
  "company/".toList ++ companyDomain ++ "/quotes/".toList ++ quoteId ++
    "/versions/".toList ++ versionId ++ "/designs/".toList ++ productId ++
    ".json".toList

/-- `s3KeyForPreview(companyDomain, quoteId, versionId, productId)`. -/
def s3KeyForPreview (companyDomain quoteId versionId productId : List Char) :
    List Char :=
  "company/".toList ++ companyDomain ++ "/quotes/".toList ++ quoteId ++
    "/versions/".toList ++ versionId ++ "/previews/".toList ++ productId ++
    ".webp".toList

/-! ## Tier resolution lemmas -/

theorem contiguous_min_le :
    ∀ (ts : List Tier) (lo : ℤ), contiguousFromB lo ts = true →
      ∀ t ∈ ts, lo ≤ t.minQty := by
  intro ts
  induction ts with
  | nil => intro lo h t ht; cases ht
  | cons a rest ih =>
    intro lo h t ht
    cases rest with
    | nil =>
      simp only [contiguousFromB, Bool.and_eq_true, beq_iff_eq] at h
      simp only [List.mem_singleton] at ht
      subst ht
      omega
    | cons r rs =>
      simp only [contiguousFromB, Bool.and_eq_true, beq_iff_eq] at h
      obtain ⟨hmin, hrest⟩ := h
      cases hmax : a.maxQty with
      | none => rw [hmax] at hrest; simp at hrest
      | some m =>
        rw [hmax] at hrest
        simp only [Bool.and_eq_true, decide_eq_true_eq] at hrest
        obtain ⟨hlom, hcont⟩ := hrest
        rcases List.mem_cons.mp ht with rfl | hmem
        · omega
        · have := ih (m + 1) hcont t hmem
          omega

theorem contiguous_filter_length :
    ∀ (ts : List Tier) (lo q : ℤ), contiguousFromB lo ts = true → lo ≤ q →
      (ts.filter (matchesB q)).length = 1 := by
  intro ts
  induction ts with
  | nil => intro lo q h _; simp [contiguousFromB] at h
  | cons a rest ih =>
    intro lo q h hq
    cases rest with
    | nil =>
      simp only [contiguousFromB, Bool.and_eq_true, beq_iff_eq] at h
      obtain ⟨hmin, hmax⟩ := h
      have hma : matchesB q a = true := by
        simp [matchesB, hmax]; omega
      rw [List.filter_cons_of_pos hma]
      rfl
    | cons r rs =>
      simp only [contiguousFromB, Bool.and_eq_true, beq_iff_eq] at h
      obtain ⟨hmin, hrest⟩ := h
      cases hmax : a.maxQty with
      | none => rw [hmax] at hrest; simp at hrest
      | some m =>
        rw [hmax] at hrest
        simp only [Bool.and_eq_true, decide_eq_true_eq] at hrest
        obtain ⟨hlom, hcont⟩ := hrest
        by_cases hqm : q ≤ m
        · have hma : matchesB q a = true := by
            simp [matchesB, hmax]; omega
          rw [List.filter_cons_of_pos hma]
          have hnil : (r :: rs).filter (matchesB q) = [] := by
            rw [List.filter_eq_nil_iff]
            intro t ht hmt
            have hge := contiguous_min_le (r :: rs) (m + 1) hcont t ht
            simp only [matchesB, Bool.and_eq_true, decide_eq_true_eq] at hmt
            omega
          rw [hnil]
          rfl
        · have hma : matchesB q a = false := by
            simp [matchesB, hmax, decide_eq_false hqm]
          rw [List.filter_cons_of_neg (by simp [hma])]
          exact ih (m + 1) q hcont (by omega)

theorem contiguous_find_mem (ts : List Tier) (lo q : ℤ)
    (h : contiguousFromB lo ts = true) (hq : lo ≤ q) :
    ∃ t, ts.find? (matchesB q) = some t ∧ t ∈ ts := by
  have hlen := contiguous_filter_length ts lo q h hq
  have hne : ts.filter (matchesB q) ≠ [] := by
    intro hnil; rw [hnil] at hlen; simp at hlen
  rcases List.exists_mem_of_ne_nil _ hne with ⟨x, hx⟩
  have hex : ∃ x, x ∈ ts ∧ matchesB q x = true :=
    ⟨x, (List.mem_filter.mp hx).1, (List.mem_filter.mp hx).2⟩
  have hsome : (ts.find? (matchesB q)).isSome := List.find?_isSome.mpr hex
  rcases Option.isSome_iff_exists.mp hsome with ⟨t, ht⟩
  exact ⟨t, ht, List.mem_of_find?_eq_some ht⟩

theorem pricesDescB_tail (a : Tier) (l : List Tier)
    (h : pricesDescB (a :: l) = true) : pricesDescB l = true := by
  cases l with
  | nil => rfl
  | cons b rest =>
    simp only [pricesDescB, Bool.and_eq_true] at h
    exact h.2

theorem pricesDescB_head_ge :
    ∀ (l : List Tier) (a : Tier), pricesDescB (a :: l) = true →
      ∀ x ∈ l, x.price ≤ a.price := by
  intro l
  induction l with
  | nil => intro a _ x hx; cases hx
  | cons b rest ih =>
    intro a h x hx
    simp only [pricesDescB, Bool.and_eq_true, decide_eq_true_eq] at h
    obtain ⟨hba, hrest⟩ := h
    rcases List.mem_cons.mp hx with rfl | hmem
    · exact hba
    · exact le_trans (ih b hrest x hmem) hba

theorem contiguous_find_price_antitone :
    ∀ (ts : List Tier) (lo q₁ q₂ : ℤ), contiguousFromB lo ts = true →
      pricesDescB ts = true → lo ≤ q₁ → q₁ ≤ q₂ →
      ∃ t₁ t₂, ts.find? (matchesB q₁) = some t₁ ∧
        ts.find? (matchesB q₂) = some t₂ ∧ t₂.price ≤ t₁.price := by
  intro ts
  induction ts with
  | nil => intro lo q₁ q₂ h _ _ _; simp [contiguousFromB] at h
  | cons a rest ih =>
    intro lo q₁ q₂ h hp h1 h12
    cases rest with
    | nil =>
      simp only [contiguousFromB, Bool.and_eq_true, beq_iff_eq] at h
      obtain ⟨hmin, hmax⟩ := h
      have hm1 : matchesB q₁ a = true := by simp [matchesB, hmax]; omega
      have hm2 : matchesB q₂ a = true := by simp [matchesB, hmax]; omega
      exact ⟨a, a, by rw [List.find?_cons_of_pos _ hm1],
        by rw [List.find?_cons_of_pos _ hm2], le_refl _⟩
    | cons r rs =>
      simp only [contiguousFromB, Bool.and_eq_true, beq_iff_eq] at h
      obtain ⟨hmin, hrest⟩ := h
      cases hmax : a.maxQty with
      | none => rw [hmax] at hrest; simp at hrest
      | some m =>
        rw [hmax] at hrest
        simp only [Bool.and_eq_true, decide_eq_true_eq] at hrest
        obtain ⟨hlom, hcont⟩ := hrest
        by_cases h2m : q₂ ≤ m
        · have hm1 : matchesB q₁ a = true := by simp [matchesB, hmax]; omega
          have hm2 : matchesB q₂ a = true := by simp [matchesB, hmax]; omega
          exact ⟨a, a, by rw [List.find?_cons_of_pos _ hm1],
            by rw [List.find?_cons_of_pos _ hm2], le_refl _⟩
        · by_cases h1m : q₁ ≤ m
          · have hm1 : matchesB q₁ a = true := by simp [matchesB, hmax]; omega
            have hm2 : matchesB q₂ a = false := by
              simp [matchesB, hmax, decide_eq_false h2m]
            obtain ⟨t₂, hf2, hmem2⟩ :=
              contiguous_find_mem (r :: rs) (m + 1) q₂ hcont (by omega)
            refine ⟨a, t₂, by rw [List.find?_cons_of_pos _ hm1], ?_, ?_⟩
            · rw [List.find?_cons_of_neg _ (by simp [hm2]), hf2]
            · exact pricesDescB_head_ge (r :: rs) a hp t₂ hmem2
          · have hm1 : matchesB q₁ a = false := by
              simp [matchesB, hmax, decide_eq_false h1m]
            have hm2 : matchesB q₂ a = false := by
              simp [matchesB, hmax, decide_eq_false h2m]
            obtain ⟨t₁, t₂, hf1, hf2, hle⟩ :=
              ih (m + 1) q₁ q₂ hcont (pricesDescB_tail a _ hp) (by omega) h12
            exact ⟨t₁, t₂,
              by rw [List.find?_cons_of_neg _ (by simp [hm1]), hf1],
              by rw [List.find?_cons_of_neg _ (by simp [hm2]), hf2], hle⟩

/-! ## Claim theorems: pricing -/

/-- C1: with tiers 1-9 at 29.99, 10-49 at 26.99, 50-99 at 23.99 and
100+ at 19.99 and quantity 75, `POST /api/calculate-price` returns
unitPrice 23.99, totalPrice 1799.25 and savings 450.00 (rounded to two
decimals); moreover `totalPrice = unitPrice * quantity` always, and
savings is 0 whenever the resolved quantity is at most 1. -/
theorem calc_price_scenario_q75 :
    calcPriceResponse tiersC1 (some 75) =
      some ⟨75, 2399/100, 179925/100, 450⟩ ∧
    (∀ (pricing : List Tier) (qn : Option ℤ) (r : PriceResponse),
      calcPriceResponse pricing qn = some r →
      r.totalPrice = r.unitPrice * (r.quantity : ℚ)) ∧
    (∀ (pricing : List Tier) (qn : Option ℤ) (r : PriceResponse),
      resolveQty qn ≤ 1 → calcPriceResponse pricing qn = some r →
      r.savings = 0) := by
  refine ⟨?_, ?_, ?_⟩
  · norm_num [calcPriceResponse, unitPriceOpt, tierFor, resolveQty, round2,
      tiersC1, matchesB, List.find?]
  · intro pricing qn r h
    simp only [calcPriceResponse, Option.map_eq_some'] at h
    obtain ⟨unit, hu, heq⟩ := h
    subst heq
    rfl
  · intro pricing qn r hq h
    simp only [calcPriceResponse, Option.map_eq_some'] at h
    obtain ⟨unit, hu, heq⟩ := h
    subst heq
    have hnot : ¬ (1 < resolveQty qn) := by omega
    simp only [hnot, if_false]
    norm_num [round2]

/-- Witness for C1: applies the savings clause at quantity 0 (which
resolves to 1) and the total-price clause at the quantity-75
scenario. -/
theorem calc_price_scenario_q75_witness :
    (⟨1, 2999/100, 2999/100, 0⟩ : PriceResponse).savings = 0 ∧
    (⟨75, 2399/100, 179925/100, 450⟩ : PriceResponse).totalPrice
      = (2399 : ℚ)/100 * (((75 : ℤ)) : ℚ) :=
  ⟨calc_price_scenario_q75.2.2 tiersC1 (some 0) ⟨1, 2999/100, 2999/100, 0⟩
      (by norm_num [resolveQty])
      (by norm_num [calcPriceResponse, unitPriceOpt, tierFor, resolveQty,
        round2, tiersC1, matchesB, List.find?]),
   calc_price_scenario_q75.2.1 tiersC1 (some 75)
     ⟨75, 2399/100, 179925/100, 450⟩ calc_price_scenario_q75.1⟩

/-- C3 (counterexample): `tiersGap` and `tiersInc` satisfy the literal
Product invariant (non-overlapping, sorted ascending, last maximum
null), yet quantity 7 selects zero tiers of `tiersGap`, and on
`tiersInc` the unit price increases from 10 at quantity 5 to 20 at
quantity 50. -/
theorem tier_invariant_counterexample :
    wellFormedInv tiersGap ∧ (tiersGap.filter (matchesB 7)).length = 0 ∧
    wellFormedInv tiersInc ∧ unitPriceOpt tiersInc 5 = some 10 ∧
    unitPriceOpt tiersInc 50 = some 20 ∧ ¬ ((20 : ℚ) ≤ (10 : ℚ)) := by
  refine ⟨⟨by simp [tiersGap], ?_, ?_, ?_⟩, ?_,
    ⟨by simp [tiersInc], ?_, ?_, ?_⟩, ?_, ?_, by norm_num⟩
  · refine List.Pairwise.cons ?_ (List.pairwise_singleton _ _)
    intro b hb
    simp only [tiersGap, List.mem_singleton] at hb
    subst hb
    intro q hq
    simp only [matchesB, Bool.and_eq_true, decide_eq_true_eq] at hq
    omega
  · simp only [tiersGap, List.chain'_cons, List.chain'_singleton]
    norm_num
  · intro t ht
    have h0 : tiersGap.getLast? = some (⟨10, none, 5⟩ : Tier) := rfl
    rw [h0] at ht
    cases ht
    rfl
  · norm_num [tiersGap, matchesB, List.filter]
  · refine List.Pairwise.cons ?_ (List.pairwise_singleton _ _)
    intro b hb
    simp only [tiersInc, List.mem_singleton] at hb
    subst hb
    intro q hq
    simp only [matchesB, Bool.and_eq_true, decide_eq_true_eq] at hq
    omega
  · simp only [tiersInc, List.chain'_cons, List.chain'_singleton]
    norm_num
  · intro t ht
    have h0 : tiersInc.getLast? = some (⟨10, none, 20⟩ : Tier) := rfl
    rw [h0] at ht
    cases ht
    rfl
  · norm_num [unitPriceOpt, tierFor, matchesB, tiersInc, List.find?]
  · norm_num [unitPriceOpt, tierFor, matchesB, tiersInc, List.find?]

/-- C3 (amended): for every tier list with contiguous coverage of all
quantities from 1 and non-increasing prices, every quantity at least 1
selects exactly one tier, and the resolved unit price is monotonically
non-increasing in the quantity. -/
theorem tier_resolution_wellFormed :
    ∀ ts : List Tier, wellFormedB ts = true →
      ∀ q₁ q₂ : ℤ, 1 ≤ q₁ → q₁ ≤ q₂ →
        (ts.filter (matchesB q₁)).length = 1 ∧
        ∃ p₁ p₂, unitPriceOpt ts q₁ = some p₁ ∧
          unitPriceOpt ts q₂ = some p₂ ∧ p₂ ≤ p₁ := by
  intro ts hwf q₁ q₂ h1 h12
  rw [wellFormedB, Bool.and_eq_true] at hwf
  obtain ⟨hcont, hdesc⟩ := hwf
  refine ⟨contiguous_filter_length ts 1 q₁ hcont h1, ?_⟩
  obtain ⟨t₁, t₂, hf1, hf2, hle⟩ :=
    contiguous_find_price_antitone ts 1 q₁ q₂ hcont hdesc h1 h12
  exact ⟨t₁.price, t₂.price, by simp [unitPriceOpt, tierFor, hf1],
    by simp [unitPriceOpt, tierFor, hf2], hle⟩

/-- Witness for the amended C3 at the `PROD001` tier list, quantities
5 and 500. -/
theorem tier_resolution_wellFormed_witness :
    (tiersC1.filter (matchesB 5)).length = 1 ∧
    ∃ p₁ p₂, unitPriceOpt tiersC1 5 = some p₁ ∧
      unitPriceOpt tiersC1 500 = some p₂ ∧ p₂ ≤ p₁ :=
  tier_resolution_wellFormed tiersC1
    (by norm_num [wellFormedB, contiguousFromB, pricesDescB, tiersC1])
    5 500 (by norm_num) (by norm_num)

/-- C10: with a non-empty pricing list, `calculatePrice` always
resolves a unit price (matching tier, else first tier); with the empty
pricing list — which the catalog filter admits, since the empty JSON
array passes its `Array.isArray` check — the no-match fallback
`pricing[0].price` has no element to read, so no price is returned. -/
theorem unit_price_totality_and_empty_pricing :
    (∀ (pricing : List Tier) (q : ℤ), pricing ≠ [] →
      ∃ p, unitPriceOpt pricing q = some p) ∧
    (∀ q : ℤ, unitPriceOpt [] q = none) ∧
    validB (mapAirtableRecordToProduct recEmptyPricing) = true ∧
    (mapAirtableRecordToProduct recEmptyPricing).pricing = Json.arr [] := by
  refine ⟨?_, ?_, ?_, ?_⟩
  · intro pricing q hne
    cases pricing with
    | nil => exact absurd rfl hne
    | cons a l =>
      cases hf : (a :: l).find? (matchesB q) with
      | some t => exact ⟨t.price, by simp [unitPriceOpt, tierFor, hf]⟩
      | none => exact ⟨a.price, by simp [unitPriceOpt, tierFor, hf]⟩
  · intro q
    rfl
  · rfl
  · rfl

/-- Witness for C10 at the `PROD001` tier list and quantity 7. -/
theorem unit_price_totality_witness :
    ∃ p, unitPriceOpt tiersC1 7 = some p :=
  unit_price_totality_and_empty_pricing.1 tiersC1 7 (by simp [tiersC1])

/-! ## Claim theorems: catalog fetch, cache and normalizer -/

/-- C2: the product-list operation never fails — `GET /api/products`
answers HTTP 200 with the fetched list on success and with the
hardcoded 20-item fallback catalog when the external fetch throws. -/
theorem products_endpoint_never_fails :
    (∀ ps : List Product, apiProductsResponse (Except.ok ps)
        = (200, ps.map (fun p => (p, currentPrice p)))) ∧
    (∀ e : String, apiProductsResponse (Except.error e)
        = (200, PRODUCTS.map (fun p => (p, currentPrice p)))) ∧
    PRODUCTS.length = 20 ∧
    (∀ fetched : Except String (List Product),
        (apiProductsResponse fetched).1 = 200) :=
  ⟨fun _ => rfl, fun _ => rfl, rfl, fun _ => rfl⟩

/-- C4: a populated, unexpired cache is served without consulting the
fetch outcome and without state change; two reads within the window
agree; a successful fetch on miss replaces the cache and sets expiry
to `now + 5 * 60 * 1000` milliseconds (5 minutes). -/
theorem cache_hit_and_refresh :
    (∀ (st : AirtableCache) (now : ℤ) (raw : Except String (List Product))
        (ps : List Product), st.products = some ps → now < st.expiresAt →
        fetchProductsFromAirtableCached st now raw = (Except.ok ps, st)) ∧
    (∀ (st : AirtableCache) (now₁ now₂ : ℤ)
        (raw₁ raw₂ : Except String (List Product)) (ps : List Product),
        st.products = some ps → now₁ < st.expiresAt → now₂ < st.expiresAt →
        (fetchProductsFromAirtableCached st now₁ raw₁).1
          = (fetchProductsFromAirtableCached st now₂ raw₂).1) ∧
    (∀ (st : AirtableCache) (now : ℤ) (fresh : List Product),
        st.products = none ∨ st.expiresAt ≤ now →
        fetchProductsFromAirtableCached st now (Except.ok fresh)
          = (Except.ok fresh, ⟨some fresh, now + 5 * 60 * 1000⟩)) := by
  have hit : ∀ (st : AirtableCache) (now : ℤ)
      (raw : Except String (List Product)) (ps : List Product),
      st.products = some ps → now < st.expiresAt →
      fetchProductsFromAirtableCached st now raw = (Except.ok ps, st) := by
    intro st now raw ps hp hlt
    simp [fetchProductsFromAirtableCached, hp, if_pos hlt]
  refine ⟨hit, ?_, ?_⟩
  · intro st now₁ now₂ raw₁ raw₂ ps hp h1 h2
    rw [hit st now₁ raw₁ ps hp h1, hit st now₂ raw₂ ps hp h2]
  · intro st now fresh h
    cases hps : st.products with
    | none => simp [fetchProductsFromAirtableCached, hps, fetchCachedStep]
    | some ps =>
      rcases h with h | h
      · rw [hps] at h; cases h
      · have hnot : ¬ now < st.expiresAt := by omega
        simp [fetchProductsFromAirtableCached, hps, hnot, fetchCachedStep]

/-- Witness for C4: a populated cache at time 5 with expiry 10 serves
the cached (empty) list even though the fetch outcome is an error, and
an empty cache refreshed at time 0 stores the fallback list with
expiry 300000. -/
theorem cache_hit_and_refresh_witness :
    fetchProductsFromAirtableCached ⟨some [], 10⟩ 5 (Except.error "down")
      = (Except.ok [], ⟨some [], 10⟩) ∧
    fetchProductsFromAirtableCached ⟨none, 0⟩ 0 (Except.ok PRODUCTS)
      = (Except.ok PRODUCTS, ⟨some PRODUCTS, 0 + 5 * 60 * 1000⟩) :=
  ⟨cache_hit_and_refresh.1 ⟨some [], 10⟩ 5 (Except.error "down") [] rfl
      (by norm_num),
   cache_hit_and_refresh.2.2 ⟨none, 0⟩ 0 PRODUCTS (Or.inl rfl)⟩

/-- C5: normalization substitutes empty lists for absent or malformed
JSON pricing/boxes sub-fields; every row surviving the fetch filter has
a non-empty identifier, a non-empty image filename and list-shaped
pricing; and when no valid rows remain the fetch fails. -/
theorem normalizer_defaults_and_failure :
    (∀ (rec : AirtableRecord) (f : AirtableRecordFields),
      rec.fields = some f →
      ((f.pricing_json = RawField.missing ∨
          f.pricing_json = RawField.malformed) →
        (mapAirtableRecordToProduct rec).pricing = Json.arr []) ∧
      ((f.boxes = RawField.missing ∨ f.boxes = RawField.malformed) →
        (mapAirtableRecordToProduct rec).boxes = [])) ∧
    (∀ (recs : List AirtableRecord) (rows : List RawProduct),
      fetchRows recs = Except.ok rows →
      ∀ r ∈ rows, r.id ≠ "" ∧ r.imageFile ≠ "" ∧ isArrayB r.pricing = true) ∧
    (∀ recs : List AirtableRecord,
      (recs.map mapAirtableRecordToProduct).filter validB = [] →
      fetchRows recs = Except.error "No valid products from Airtable") := by
  refine ⟨?_, ?_, ?_⟩
  · intro rec f hf
    constructor
    · intro hph
      rcases hph with h | h <;>
        simp [mapAirtableRecordToProduct, hf, safeJsonParse, h]
    · intro hbx
      rcases hbx with h | h <;>
        simp [mapAirtableRecordToProduct, hf, safeJsonParse, h, jsonGet,
          List.find?]
  · intro recs rows h r hr
    simp only [fetchRows] at h
    split at h
    · cases h
    · cases h
      have hv := (List.mem_filter.mp hr).2
      simp only [validB, Bool.and_eq_true, Bool.not_eq_true',
        beq_eq_false_iff_ne] at hv
      exact ⟨hv.1.1, hv.1.2, hv.2⟩
  · intro recs hnil
    simp [fetchRows, hnil]

/-- Witness for C5: the concrete record `recMalformed` (malformed
pricing JSON, absent boxes) normalizes to empty lists, and an empty
record batch makes the fetch fail. -/
theorem normalizer_defaults_witness :
    (mapAirtableRecordToProduct recMalformed).pricing = Json.arr [] ∧
    (mapAirtableRecordToProduct recMalformed).boxes = [] ∧
    fetchRows [] = Except.error "No valid products from Airtable" :=
  ⟨(normalizer_defaults_and_failure.1 recMalformed _ rfl).1 (Or.inr rfl),
   (normalizer_defaults_and_failure.1 recMalformed _ rfl).2 (Or.inl rfl),
   normalizer_defaults_and_failure.2.2 [] rfl⟩

/-! ## Claim theorems: mockup geometry and shipping -/

/-- C6 (counterexample): the degenerate placement rectangle with
`x1 = x2 = 10`, `y1 = y2 = 5` (zero width and height) is not rejected:
the render handler clamps both dimensions to 1 and succeeds. -/
theorem degenerate_rect_counterexample :
    ((10 : ℚ) - 10 = 0) ∧
    resolveRenderRect (some ⟨10, 5, 10, 5⟩) = Except.ok ⟨10, 5, 1, 1⟩ := by
  constructor
  · norm_num
  · simp [resolveRenderRect]

/-- C6 (amended): the render handler fails only when `placement.px` is
absent; for every placement rectangle — degenerate or not — it
succeeds, with width and height clamped to at least 1. -/
theorem render_rect_clamps_degenerate :
    resolveRenderRect none = Except.error RenderFailure.placementRequired ∧
    ∀ p : PlacementPx, ∃ r : RenderRect,
      resolveRenderRect (some p) = Except.ok r ∧
      r = ⟨round p.x1, round p.y1, max 1 (round (p.x2 - p.x1)),
        max 1 (round (p.y2 - p.y1))⟩ ∧
      1 ≤ r.width ∧ 1 ≤ r.height := by
  refine ⟨rfl, fun p => ⟨_, rfl, rfl, ?_, ?_⟩⟩
  · exact le_max_left _ _
  · exact le_max_left _ _

/-- C7 (counterexample): on a 1000 by 1000 base image with zero boxes
the default rectangle is `(x, y, w, h) = (350, 300, 300, 180)`: its top
edge sits at 30% of the height, not at the vertically centered
`(1000 - 180) / 2 = 410`. -/
theorem default_box_counterexample :
    composeMockupRect [] 1000 1000 = ⟨350, 300, 300, 180⟩ ∧
    (composeMockupRect [] 1000 1000).rectTop
      ≠ round (((1000 : ℚ) - ((composeMockupRect [] 1000 1000).height : ℚ)) / 2) := by
  have h : composeMockupRect [] 1000 1000 = ⟨350, 300, 300, 180⟩ := by
    norm_num [composeMockupRect]
  refine ⟨h, ?_⟩
  rw [h]
  norm_num

/-- C7 (amended): with zero placement boxes the compositor uses a
default rectangle of width `round(0.30 * W)`, height `round(0.6 * w)`,
horizontally centered (its left edge is the rounded `(W - w) / 2`),
with its top edge at `round(0.30 * H)` — 30% down from the top, not
vertically centered. -/
theorem default_box_geometry :
    ∀ width height : ℕ,
      |(width : ℚ) * (30/100)
          - ((composeMockupRect [] width height).width : ℚ)| ≤ 1/2 ∧
      (composeMockupRect [] width height).height
        = round (((composeMockupRect [] width height).width : ℚ) * (6/10)) ∧
      |((width : ℚ) - ((composeMockupRect [] width height).width : ℚ)) / 2
          - ((composeMockupRect [] width height).rectLeft : ℚ)| ≤ 1/2 ∧
      |(height : ℚ) * (30/100)
          - ((composeMockupRect [] width height).rectTop : ℚ)| ≤ 1/2 := by
  intro width height
  refine ⟨abs_sub_round _, rfl, abs_sub_round _, abs_sub_round _⟩

/-- C8: the shipping-options table — domestic subtotal under 10000
cents gives standard 1000 / express 2500; domestic at or above 10000
gives standard 0 / express 2500; non-domestic gives standard 2500 /
express 5000. -/
theorem shipping_options_table :
    ∀ (subtotalCents : ℤ) (country : Option String),
      (toUpperStr (resolveCountry country) = "US" →
        (subtotalCents < 10000 →
          shippingOptionsFor subtotalCents country
            = [⟨"Standard", 1000⟩, ⟨"Express", 2500⟩]) ∧
        (10000 ≤ subtotalCents →
          shippingOptionsFor subtotalCents country
            = [⟨"Standard (Free over $100)", 0⟩, ⟨"Express", 2500⟩])) ∧
      (toUpperStr (resolveCountry country) ≠ "US" →
        shippingOptionsFor subtotalCents country
          = [⟨"Standard (Intl.)", 2500⟩, ⟨"Express (Intl.)", 5000⟩]) := by
  intro s c
  constructor
  · intro hus
    constructor
    · intro hlt
      simp [shippingOptionsFor, hus, hlt]
    · intro hge
      have hnot : ¬ s < 10000 := by omega
      simp [shippingOptionsFor, hus, hnot]
  · intro hne
    simp [shippingOptionsFor, hne]

/-- Witness for C8 at the spec's scenario subtotals 9500 and 15000
cents (country `US`) and at country `CA`. -/
theorem shipping_options_table_witness :
    shippingOptionsFor 9500 (some "US")
      = [⟨"Standard", 1000⟩, ⟨"Express", 2500⟩] ∧
    shippingOptionsFor 15000 (some "US")
      = [⟨"Standard (Free over $100)", 0⟩, ⟨"Express", 2500⟩] ∧
    shippingOptionsFor 9500 (some "CA")
      = [⟨"Standard (Intl.)", 2500⟩, ⟨"Express (Intl.)", 5000⟩] :=
  ⟨((shipping_options_table 9500 (some "US")).1 rfl).1 (by norm_num),
   ((shipping_options_table 15000 (some "US")).1 rfl).2 (by norm_num),
   (shipping_options_table 9500 (some "CA")).2 (by decide)⟩

/-! ## Asset-key lemmas and claim theorem -/

theorem replaceAtChar_no_at : ∀ s : List Char, '@' ∉ replaceAtChar s := by
  intro s h
  rw [replaceAtChar, List.mem_flatMap] at h
  obtain ⟨c, hc, hm⟩ := h
  by_cases hc' : c = '@'
  · rw [if_pos hc'] at hm
    exact absurd hm (by decide)
  · rw [if_neg hc'] at hm
    simp only [List.mem_singleton] at hm
    exact hc' hm.symm

theorem replaceDotChar_no_dot : ∀ s : List Char, '.' ∉ replaceDotChar s := by
  intro s h
  rw [replaceDotChar, List.mem_flatMap] at h
  obtain ⟨c, hc, hm⟩ := h
  by_cases hc' : c = '.'
  · rw [if_pos hc'] at hm
    exact absurd hm (by decide)
  · rw [if_neg hc'] at hm
    simp only [List.mem_singleton] at hm
    exact hc' hm.symm

theorem replaceDotChar_keeps_no_at (s : List Char) (hs : '@' ∉ s) :
    '@' ∉ replaceDotChar s := by
  intro h
  rw [replaceDotChar, List.mem_flatMap] at h
  obtain ⟨c, hc, hm⟩ := h
  by_cases hc' : c = '.'
  · rw [if_pos hc'] at hm
    exact absurd hm (by decide)
  · rw [if_neg hc'] at hm
    simp only [List.mem_singleton] at hm
    exact hs (hm ▸ hc)

theorem replace_two_pass : ∀ l : List Char,
    replaceDotChar (replaceAtChar l) = l.flatMap sanitizeChar := by
  intro l
  induction l with
  | nil => rfl
  | cons c cs ih =>
    have hcons : replaceAtChar (c :: cs)
        = (if c = '@' then atToken else [c]) ++ replaceAtChar cs := by
      simp [replaceAtChar]
    have happ : ∀ a b : List Char,
        replaceDotChar (a ++ b) = replaceDotChar a ++ replaceDotChar b := by
      intro a b
      simp [replaceDotChar]
    rw [hcons, happ, ih, List.flatMap_cons]
    by_cases ha : c = '@'
    · subst ha
      rfl
    · by_cases hd : c = '.'
      · subst hd
        rfl
      · rw [if_neg ha]
        simp [replaceDotChar, sanitizeChar, ha, hd]

theorem splitOnChar_no_sep : ∀ (sep : Char) (l : List Char), sep ∉ l →
    splitOnChar sep l = [l] := by
  intro sep l
  induction l with
  | nil => intro _; rfl
  | cons c cs ih =>
    intro h
    have hc : c ≠ sep := fun e => h (e ▸ List.mem_cons_self c cs)
    have hcs : sep ∉ cs := fun m => h (List.mem_cons_of_mem _ m)
    simp only [splitOnChar]
    rw [ih hcs, if_neg hc]

theorem splitOnChar_append (sep : Char) : ∀ (xs ys : List Char), sep ∉ xs →
    splitOnChar sep (xs ++ sep :: ys) = xs :: splitOnChar sep ys := by
  intro xs
  induction xs with
  | nil =>
    intro ys _
    simp [splitOnChar]
  | cons c cs ih =>
    intro ys h
    have hc : c ≠ sep := fun e => h (e ▸ List.mem_cons_self c cs)
    have hcs : sep ∉ cs := fun m => h (List.mem_cons_of_mem _ m)
    simp only [List.cons_append, splitOnChar, List.append_eq]
    rw [ih ys hcs, if_neg hc]

/-- C9: the asset-key derivations are deterministic; the customer
folder is the email lowercased with `@` and `.` replaced by the
literal tokens (hence free of `@` and `.`); and the company-scoped
keys extract the email's lowercased domain and live under
`company/<domain>/...`. -/
theorem asset_keys_stable_and_sanitized :
    (∀ e₁ e₂ : List Char, e₁ = e₂ → emailToS3Folder e₁ = emailToS3Folder e₂) ∧
    (∀ e : List Char, '@' ∉ emailToS3Folder e ∧ '.' ∉ emailToS3Folder e) ∧
    (∀ e : List Char, emailToS3Folder e = (lowerStr e).flatMap sanitizeChar) ∧
    (∀ localPart domain : List Char, '@' ∉ lowerStr localPart →
      '@' ∉ lowerStr domain → domain ≠ [] →
      companyDomainFromEmail (localPart ++ '@' :: domain) = lowerStr domain) ∧
    (∀ d l f q v p : List Char,
      (∃ rest, s3KeyForLogo d l f = "company/".toList ++ d ++ '/' :: rest) ∧
      (∃ rest, s3KeyForDesign d q v p
        = "company/".toList ++ d ++ '/' :: rest) ∧
      (∃ rest, s3KeyForPreview d q v p
        = "company/".toList ++ d ++ '/' :: rest)) := by
  refine ⟨fun _ _ h => congrArg _ h, ?_, ?_, ?_, ?_⟩
  · intro e
    exact ⟨replaceDotChar_keeps_no_at _ (replaceAtChar_no_at _),
      replaceDotChar_no_dot _⟩
  · intro e
    exact replace_two_pass (lowerStr e)
  · intro localPart domain h1 h2 h3
    have hsplit : lowerStr (localPart ++ '@' :: domain)
        = lowerStr localPart ++ '@' :: lowerStr domain := by
      simp [lowerStr, show Char.toLower '@' = '@' from by decide]
    rw [companyDomainFromEmail, hsplit, splitOnChar_append _ _ _ h1,
      splitOnChar_no_sep _ _ h2]
    have hne : lowerStr domain ≠ [] := by
      intro h0
      exact h3 (List.map_eq_nil_iff.mp h0)
    simp [hne]
  · intro d l f q v p
    refine ⟨⟨"logos/".toList ++ l ++ "/".toList ++ f, ?_⟩,
      ⟨"quotes/".toList ++ q ++ "/versions/".toList ++ v ++
        "/designs/".toList ++ p ++ ".json".toList, ?_⟩,
      ⟨"quotes/".toList ++ q ++ "/versions/".toList ++ v ++
        "/previews/".toList ++ p ++ ".webp".toList, ?_⟩⟩
    · show "company/".toList ++ d ++ "/logos/".toList ++ l ++ "/".toList ++ f
        = "company/".toList ++ d ++ '/' ::
          ("logos/".toList ++ l ++ "/".toList ++ f)
      simp [List.append_assoc]
    · show "company/".toList ++ d ++ "/quotes/".toList ++ q ++
          "/versions/".toList ++ v ++ "/designs/".toList ++ p ++
          ".json".toList
        = "company/".toList ++ d ++ '/' ::
          ("quotes/".toList ++ q ++ "/versions/".toList ++ v ++
            "/designs/".toList ++ p ++ ".json".toList)
      simp [List.append_assoc]
    · show "company/".toList ++ d ++ "/quotes/".toList ++ q ++
          "/versions/".toList ++ v ++ "/previews/".toList ++ p ++
          ".webp".toList
        = "company/".toList ++ d ++ '/' ::
          ("quotes/".toList ++ q ++ "/versions/".toList ++ v ++
            "/previews/".toList ++ p ++ ".webp".toList)
      simp [List.append_assoc]

/-- Witness for C9: the domain of `user@Example.com` resolves to
`example.com`. -/
theorem asset_keys_witness :
    companyDomainFromEmail ("user".toList ++ '@' :: "Example.com".toList)
      = lowerStr "Example.com".toList :=
  asset_keys_stable_and_sanitized.2.2.2.1 "user".toList "Example.com".toList
    (by decide) (by decide) (by decide)

end StripeInvoice

